import Mathlib

/-!
Verification development for the DLMS/COSEM client stack (Go sources under
`meterlibs/protocol/dlms`).  Each Go function relevant to the checked claims is
shallowly embedded as an executable Lean definition; Go `panic` and Go `error`
returns are modelled with `Option` / `Except`.  Machine integers are modelled
as `Nat` with explicit masking where the Go code relies on fixed-width
arithmetic.
-/

set_option maxRecDepth 4000

/-- Decidable equality for `Except`, needed to settle the finite state-machine
properties by `decide`. -/
instance exceptDecEq {ε α : Type} [DecidableEq ε] [DecidableEq α] :
    DecidableEq (Except ε α) := fun x y =>
  match x, y with
  | .error a, .error b =>
      if h : a = b then .isTrue (by rw [h])
      else .isFalse (by intro hh; cases hh; exact h rfl)
  | .error _, .ok _ => .isFalse (by intro hh; cases hh)
  | .ok _, .error _ => .isFalse (by intro hh; cases hh)
  | .ok a, .ok b =>
      if h : a = b then .isTrue (by rw [h])
      else .isFalse (by intro hh; cases hh; exact h rfl)

/-! ## DLMS session state machine (Go package `dlms`, connection state file) -/

namespace Dlms

/-- The thirteen sentinel states declared in the Go source (`State` values). -/
inductive DlmsState where
  | NoAssociation
  | AwaitingAssociationResponse
  | Ready
  | AwaitingReleaseResponse
  | AwaitingActionResponse
  | AwaitingGetResponse
  | AwaitingGetBlockResponse
  | ShouldAckLastGetBlock
  | AwaitingSetResponse
  | ShouldSendHlsServerChallengeResult
  | AwaitingHlsClientChallengeResult
  | HlsDone
  | NeedData
deriving DecidableEq, Fintype, Repr

/-- The Go event types used as keys of `dlmsStateTransitions`
(`reflect.TypeOf` of the event struct). -/
inductive DlmsEventType where
  | ApplicationAssociationRequest
  | ApplicationAssociationResponse
  | ReleaseRequest
  | ReleaseResponse
  | ExceptionResponse
  | GetRequestNormal
  | GetRequestNext
  | GetResponseNormal
  | GetResponseNormalWithError
  | GetResponseWithDataBlock
  | SetRequestNormal
  | SetResponseNormal
  | ActionRequestNormal
  | ActionResponseNormal
  | ActionResponseNormalWithData
  | ActionResponseNormalWithError
  | DataNotification
  | HlsStart
  | HlsSuccess
  | HlsFailed
  | RejectAssociation
  | EndAssociation
deriving DecidableEq, Fintype, Repr

/-- Event values handed to `ProcessEvent`.  The Go FSM dispatches on
`reflect.TypeOf(event)` only; payload fields are shown for the events whose
contents the claims mention. -/
inductive DlmsEvent where
  | applicationAssociationRequest
  | applicationAssociationResponse
  | releaseRequest
  | releaseResponse
  | exceptionResponse
  | getRequestNormal
  | getRequestNext (blockNumber : Nat)
  | getResponseNormal
  | getResponseNormalWithError
  | getResponseWithDataBlock (lastBlock : Bool) (blockNumber : Nat) (rawData : List Nat)
  | setRequestNormal
  | setResponseNormal
  | actionRequestNormal
  | actionResponseNormal
  | actionResponseNormalWithData
  | actionResponseNormalWithError
  | dataNotification
  | hlsStart
  | hlsSuccess
  | hlsFailed
  | rejectAssociation
  | endAssociation
deriving DecidableEq, Repr

/-- Go: `reflect.TypeOf(event)` inside `ProcessEvent`. -/
def eventTypeOf : DlmsEvent → DlmsEventType
  | .applicationAssociationRequest => .ApplicationAssociationRequest
  | .applicationAssociationResponse => .ApplicationAssociationResponse
  | .releaseRequest => .ReleaseRequest
  | .releaseResponse => .ReleaseResponse
  | .exceptionResponse => .ExceptionResponse
  | .getRequestNormal => .GetRequestNormal
  | .getRequestNext _ => .GetRequestNext
  | .getResponseNormal => .GetResponseNormal
  | .getResponseNormalWithError => .GetResponseNormalWithError
  | .getResponseWithDataBlock _ _ _ => .GetResponseWithDataBlock
  | .setRequestNormal => .SetRequestNormal
  | .setResponseNormal => .SetResponseNormal
  | .actionRequestNormal => .ActionRequestNormal
  | .actionResponseNormal => .ActionResponseNormal
  | .actionResponseNormalWithData => .ActionResponseNormalWithData
  | .actionResponseNormalWithError => .ActionResponseNormalWithError
  | .dataNotification => .DataNotification
  | .hlsStart => .HlsStart
  | .hlsSuccess => .HlsSuccess
  | .hlsFailed => .HlsFailed
  | .rejectAssociation => .RejectAssociation
  | .endAssociation => .EndAssociation

/-- The Go map `dlmsStateTransitions`.  The outer lookup is `none` exactly for
the states with no entry in the map (only `NeedData`); the inner function is
the per-state `map[reflect.Type]*State`. -/
def dlmsStateTransitions : DlmsState → Option (DlmsEventType → Option DlmsState)
  | .NoAssociation => some fun e => match e with
      | .ApplicationAssociationRequest => some .AwaitingAssociationResponse
      | _ => none
  | .AwaitingAssociationResponse => some fun e => match e with
      | .ApplicationAssociationResponse => some .Ready
      | .ExceptionResponse => some .NoAssociation
      | _ => none
  | .Ready => some fun e => match e with
      | .ReleaseRequest => some .AwaitingReleaseResponse
      | .GetRequestNormal => some .AwaitingGetResponse
      | .SetRequestNormal => some .AwaitingSetResponse
      | .HlsStart => some .ShouldSendHlsServerChallengeResult
      | .RejectAssociation => some .NoAssociation
      | .ActionRequestNormal => some .AwaitingActionResponse
      | .DataNotification => some .Ready
      | .EndAssociation => some .NoAssociation
      | _ => none
  | .ShouldSendHlsServerChallengeResult => some fun e => match e with
      | .ActionRequestNormal => some .AwaitingHlsClientChallengeResult
      | _ => none
  | .AwaitingHlsClientChallengeResult => some fun e => match e with
      | .ActionResponseNormalWithData => some .HlsDone
      | .ActionResponseNormal => some .NoAssociation
      | .ActionResponseNormalWithError => some .NoAssociation
      | _ => none
  | .HlsDone => some fun e => match e with
      | .HlsSuccess => some .Ready
      | .HlsFailed => some .NoAssociation
      | _ => none
  | .AwaitingGetResponse => some fun e => match e with
      | .GetResponseNormal => some .Ready
      | .GetResponseWithDataBlock => some .ShouldAckLastGetBlock
      | .GetResponseNormalWithError => some .Ready
      | .ExceptionResponse => some .Ready
      | _ => none
  | .AwaitingGetBlockResponse => some fun e => match e with
      | .GetResponseWithDataBlock => some .ShouldAckLastGetBlock
      | .GetResponseNormalWithError => some .Ready
      | .ExceptionResponse => some .Ready
      | _ => none
  | .AwaitingSetResponse => some fun e => match e with
      | .SetResponseNormal => some .Ready
      | _ => none
  | .AwaitingActionResponse => some fun e => match e with
      | .ActionResponseNormal => some .Ready
      | .ActionResponseNormalWithData => some .Ready
      | .ActionResponseNormalWithError => some .Ready
      | _ => none
  | .ShouldAckLastGetBlock => some fun e => match e with
      | .GetRequestNext => some .AwaitingGetBlockResponse
      | _ => none
  | .AwaitingReleaseResponse => some fun e => match e with
      | .ReleaseResponse => some .NoAssociation
      | .ExceptionResponse => some .Ready
      | _ => none
  | .NeedData => none

/-- The two distinct error results of `transitionState`: a plain
`fmt.Errorf("no transitions defined for state ...")` when the state has no
entry in the outer map, and `exceptions.NewLocalDlmsProtocolError(...)` when
the event type has no entry for the state. -/
inductive DlmsError where
  | noTransitionsForState
  | localDlmsProtocolError
deriving DecidableEq, Repr

/-- Go: `DlmsConnectionState.transitionState`. -/
def transitionState (current : DlmsState) (eventType : DlmsEventType) :
    Except DlmsError DlmsState :=
  match dlmsStateTransitions current with
  | none => .error .noTransitionsForState
  | some transitions =>
    match transitions eventType with
    | none => .error .localDlmsProtocolError
    | some newState => .ok newState

/-- Go: `DlmsConnectionState.ProcessEvent`.  The returned pair is the method's
error result together with the `currentState` field after the call: the Go
method assigns `d.currentState = newState` only on the success path. -/
def processEvent (current : DlmsState) (event : DlmsEvent) :
    Except DlmsError Unit × DlmsState :=
  match transitionState current (eventTypeOf event) with
  | .error err => (.error err, current)
  | .ok newState => (.ok (), newState)

/-- States reachable from the initial state `NoAssociation`
(`NewDlmsConnectionState`) through successful `ProcessEvent` calls. -/
inductive Reachable : DlmsState → Prop where
  | init : Reachable .NoAssociation
  | step {s s' : DlmsState} {e : DlmsEvent} : Reachable s →
      processEvent s e = (.ok (), s') → Reachable s'

/-- Every transition in the table targets one of the twelve non-`NeedData`
states; shared helper for the reachability arguments. -/
lemma target_ne_needData :
    ∀ (s : DlmsState) (et : DlmsEventType),
      transitionState s et ≠ .ok .NeedData := by decide

/-- Helper: a successful `processEvent` call is a successful table transition. -/
lemma processEvent_ok {s s' : DlmsState} {e : DlmsEvent}
    (hp : processEvent s e = (.ok (), s')) :
    transitionState s (eventTypeOf e) = .ok s' := by
  unfold processEvent at hp
  cases htr : transitionState s (eventTypeOf e) with
  | error err =>
    rw [htr] at hp
    exact Except.noConfusion (congrArg Prod.fst hp)
  | ok ns =>
    rw [htr] at hp
    have hp' : ((Except.ok () : Except DlmsError Unit), ns) = (Except.ok (), s') := hp
    exact congrArg Except.ok (congrArg Prod.snd hp')

/-- Helper: successful transitions never produce `NeedData`. -/
lemma reachable_ne_needData {s : DlmsState} (h : Reachable s) :
    s ≠ .NeedData := by
  induction h with
  | init => decide
  | step hr hp ih =>
    rename_i s s' e
    intro hcontra
    subst hcontra
    exact target_ne_needData s (eventTypeOf e) (processEvent_ok hp)

/-- Helper: every reachable state has an entry in the outer transition map. -/
lemma reachable_hasTransitions {s : DlmsState} (h : Reachable s) :
    (dlmsStateTransitions s).isSome := by
  have hne := reachable_ne_needData h
  cases s <;> first | rfl | exact absurd rfl hne

/-- Whether the transition table has an entry for the (state, event type)
pair. -/
def hasTableEntry (s : DlmsState) (et : DlmsEventType) : Bool :=
  match dlmsStateTransitions s with
  | none => false
  | some m => (m et).isSome

/-- The arcs of the spec section 4.9 table, amended at the single point the
code deviates: `AwaitingGetBlockResponse` has no `GetResponseNormal` entry. -/
def dlmsSpecArcsAmended : List (DlmsState × DlmsEventType × DlmsState) :=
  [ (.NoAssociation, .ApplicationAssociationRequest, .AwaitingAssociationResponse),
    (.AwaitingAssociationResponse, .ApplicationAssociationResponse, .Ready),
    (.AwaitingAssociationResponse, .ExceptionResponse, .NoAssociation),
    (.Ready, .ReleaseRequest, .AwaitingReleaseResponse),
    (.Ready, .GetRequestNormal, .AwaitingGetResponse),
    (.Ready, .SetRequestNormal, .AwaitingSetResponse),
    (.Ready, .HlsStart, .ShouldSendHlsServerChallengeResult),
    (.Ready, .RejectAssociation, .NoAssociation),
    (.Ready, .ActionRequestNormal, .AwaitingActionResponse),
    (.Ready, .DataNotification, .Ready),
    (.Ready, .EndAssociation, .NoAssociation),
    (.ShouldSendHlsServerChallengeResult, .ActionRequestNormal, .AwaitingHlsClientChallengeResult),
    (.AwaitingHlsClientChallengeResult, .ActionResponseNormalWithData, .HlsDone),
    (.AwaitingHlsClientChallengeResult, .ActionResponseNormal, .NoAssociation),
    (.AwaitingHlsClientChallengeResult, .ActionResponseNormalWithError, .NoAssociation),
    (.HlsDone, .HlsSuccess, .Ready),
    (.HlsDone, .HlsFailed, .NoAssociation),
    (.AwaitingGetResponse, .GetResponseNormal, .Ready),
    (.AwaitingGetResponse, .GetResponseWithDataBlock, .ShouldAckLastGetBlock),
    (.AwaitingGetResponse, .GetResponseNormalWithError, .Ready),
    (.AwaitingGetResponse, .ExceptionResponse, .Ready),
    (.AwaitingGetBlockResponse, .GetResponseWithDataBlock, .ShouldAckLastGetBlock),
    (.AwaitingGetBlockResponse, .GetResponseNormalWithError, .Ready),
    (.AwaitingGetBlockResponse, .ExceptionResponse, .Ready),
    (.AwaitingSetResponse, .SetResponseNormal, .Ready),
    (.AwaitingActionResponse, .ActionResponseNormal, .Ready),
    (.AwaitingActionResponse, .ActionResponseNormalWithData, .Ready),
    (.AwaitingActionResponse, .ActionResponseNormalWithError, .Ready),
    (.ShouldAckLastGetBlock, .GetRequestNext, .AwaitingGetBlockResponse),
    (.AwaitingReleaseResponse, .ReleaseResponse, .NoAssociation),
    (.AwaitingReleaseResponse, .ExceptionResponse, .Ready) ]

end Dlms

/-- C2 counterexample: the claim asserts that `AwaitingGetBlockResponse`
accepts the same events as `AwaitingGetResponse`, in particular
`GetResponseNormal` with target `Ready`; the code's table has no
`GetResponseNormal` entry for `AwaitingGetBlockResponse`, so the event is
rejected with a local DLMS protocol error. -/
theorem dlms_fsm_getblock_normal_rejected :
    Dlms.transitionState .AwaitingGetBlockResponse .GetResponseNormal =
      .error .localDlmsProtocolError ∧
    Dlms.transitionState .AwaitingGetBlockResponse .GetResponseNormal ≠
      .ok .Ready := by decide

/-- C2 (amended): the session FSM accepts exactly the (state, event-type)
pairs of the section 4.9 table with the corresponding target states, except
that `AwaitingGetBlockResponse` accepts only `GetResponseWithDataBlock`
(to `ShouldAckLastGetBlock`), `GetResponseNormalWithError` and
`ExceptionResponse` (to `Ready`) and rejects `GetResponseNormal`; every pair
not listed is rejected, with a local DLMS protocol error from every state but
the table-less `NeedData`. -/
theorem dlms_fsm_table_amended :
    ∀ (s : Dlms.DlmsState) (et : Dlms.DlmsEventType),
      Dlms.transitionState s et =
        (match Dlms.dlmsSpecArcsAmended.find? (fun t => t.1 == s && t.2.1 == et) with
         | some t => .ok t.2.2
         | none => .error (if s = .NeedData
             then .noTransitionsForState else .localDlmsProtocolError)) := by decide

/-- C4 counterexample: the claim asserts that in `AwaitingGetBlockResponse` a
`GetResponseWithDataBlock` with last-block flag 1 returns the FSM to `Ready`;
the code dispatches on the event type only and moves to
`ShouldAckLastGetBlock` instead. -/
theorem dlms_fsm_lastblock_not_ready :
    Dlms.processEvent .AwaitingGetBlockResponse
        (.getResponseWithDataBlock true 2 []) =
      (.ok (), .ShouldAckLastGetBlock) ∧
    Dlms.DlmsState.ShouldAckLastGetBlock ≠ Dlms.DlmsState.Ready := by decide

/-- C4 (amended): in `ShouldAckLastGetBlock` a `GetRequestNext` moves the FSM
to `AwaitingGetBlockResponse`; in `AwaitingGetBlockResponse` any
`GetResponseWithDataBlock` moves the FSM to `ShouldAckLastGetBlock`
regardless of its last-block flag, because the table dispatches on the event
type only. -/
theorem dlms_fsm_block_ack_amended :
    ∀ (blockNumber blockNumber2 : Nat) (lastBlock : Bool) (rawData : List Nat),
      Dlms.processEvent .ShouldAckLastGetBlock (.getRequestNext blockNumber) =
        (.ok (), .AwaitingGetBlockResponse) ∧
      Dlms.processEvent .AwaitingGetBlockResponse
          (.getResponseWithDataBlock lastBlock blockNumber2 rawData) =
        (.ok (), .ShouldAckLastGetBlock) := by
  intro _ _ _ _
  exact ⟨rfl, rfl⟩

/-- C9: from every state reachable from `NoAssociation`, an event whose type
has no entry in the transition table yields a `LocalDlmsProtocolError` (not
the plain missing-state error) and leaves the current state unchanged. -/
theorem dlms_fsm_illegal_event (s : Dlms.DlmsState) (h : Dlms.Reachable s)
    (e : Dlms.DlmsEvent)
    (hno : Dlms.hasTableEntry s (Dlms.eventTypeOf e) = false) :
    Dlms.processEvent s e = (.error .localDlmsProtocolError, s) := by
  have hsome := Dlms.reachable_hasTransitions h
  unfold Dlms.hasTableEntry at hno
  cases hm : Dlms.dlmsStateTransitions s with
  | none => rw [hm] at hsome; exact absurd hsome (by simp)
  | some m =>
    rw [hm] at hno
    have hme : m (Dlms.eventTypeOf e) = none := by
      simpa using hno
    simp [Dlms.processEvent, Dlms.transitionState, hm, hme]

/-- C9 witness: in the initial state `NoAssociation` a `SetResponseNormal`
event has no table entry and is rejected in place. -/
theorem dlms_fsm_illegal_event_witness :
    Dlms.processEvent .NoAssociation .setResponseNormal =
      (.error .localDlmsProtocolError, .NoAssociation) :=
  dlms_fsm_illegal_event .NoAssociation Dlms.Reachable.init .setResponseNormal (by decide)

/-- C10: starting from `NoAssociation`, no sequence of successful
`ProcessEvent` calls reaches the declared state `NeedData`: every reachable
state is one of the twelve states of the spec. -/
theorem dlms_needdata_unreachable (s : Dlms.DlmsState) (h : Dlms.Reachable s) :
    s ≠ .NeedData ∧
    s ∈ ([.NoAssociation, .AwaitingAssociationResponse, .Ready,
          .AwaitingReleaseResponse, .AwaitingActionResponse,
          .AwaitingGetResponse, .AwaitingGetBlockResponse,
          .ShouldAckLastGetBlock, .AwaitingSetResponse,
          .ShouldSendHlsServerChallengeResult,
          .AwaitingHlsClientChallengeResult, .HlsDone] :
          List Dlms.DlmsState) := by
  have hne := Dlms.reachable_ne_needData h
  exact ⟨hne, by cases s <;> first | decide | exact absurd rfl hne⟩

/-- C10 witness: the initial state is reachable and is not `NeedData`. -/
theorem dlms_needdata_unreachable_witness :
    Dlms.DlmsState.NoAssociation ≠ Dlms.DlmsState.NeedData ∧
    Dlms.DlmsState.NoAssociation ∈ ([.NoAssociation, .AwaitingAssociationResponse, .Ready,
          .AwaitingReleaseResponse, .AwaitingActionResponse,
          .AwaitingGetResponse, .AwaitingGetBlockResponse,
          .ShouldAckLastGetBlock, .AwaitingSetResponse,
          .ShouldSendHlsServerChallengeResult,
          .AwaitingHlsClientChallengeResult, .HlsDone] :
          List Dlms.DlmsState) :=
  dlms_needdata_unreachable .NoAssociation Dlms.Reachable.init

/-! ## HDLC link-layer state machine (Go package `hdlc`, `state.go`) -/

namespace Hdlc

/-- Go `HdlcState` constants (seven declared values). -/
inductive HdlcState where
  | NotConnected
  | Idle
  | AwaitingResponse
  | AwaitingConnection
  | AwaitingDisconnect
  | Closed
  | NeedData
deriving DecidableEq, Fintype, Repr

/-- Go `FrameType` values produced by `getFrameType` for the five frame
structs. -/
inductive FrameType where
  | SetNormalResponseMode
  | UnNumberedAcknowledgment
  | Information
  | ReceiveReady
  | Disconnect
deriving DecidableEq, Fintype, Repr

/-- The Go map `hdlcStateTransitions`; indexing a state absent from the map
yields the empty inner map (a nil Go map reads as empty). -/
def hdlcStateTransitions (s : HdlcState) (f : FrameType) : Option HdlcState :=
  match s, f with
  | .NotConnected, .SetNormalResponseMode => some .AwaitingConnection
  | .AwaitingConnection, .UnNumberedAcknowledgment => some .Idle
  | .Idle, .Information => some .AwaitingResponse
  | .Idle, .Disconnect => some .AwaitingDisconnect
  | .Idle, .ReceiveReady => some .AwaitingResponse
  | .AwaitingResponse, .Information => some .Idle
  | .AwaitingResponse, .ReceiveReady => some .Idle
  | .AwaitingDisconnect, .UnNumberedAcknowledgment => some .NotConnected
  | _, _ => none

/-- Go: `HdlcConnectionState.ProcessFrame`; a missing table entry produces
`NewLocalProtocolError` and leaves `CurrentState` unchanged.  The pair is the
error result together with `CurrentState` after the call. -/
def processFrame (current : HdlcState) (frame : FrameType) :
    Except Unit HdlcState :=
  match hdlcStateTransitions current frame with
  | none => .error ()
  | some newState => .ok newState

/-- Go: `HdlcConnectionState.IsSendState`. -/
def isSendState (s : HdlcState) : Bool :=
  s = .NotConnected || s = .Idle

/-- Go: `HdlcConnectionState.IsReceiveState`. -/
def isReceiveState (s : HdlcState) : Bool :=
  s = .AwaitingConnection || s = .AwaitingResponse || s = .AwaitingDisconnect

end Hdlc

/-! ## ExceptionResponse APDU (Go `xdlms/exception_response.go`) -/

namespace Xdlms

/-- Go constant `ExceptionResponseTag = 216` (0xD8). -/
def ExceptionResponseTag : Nat := 216

/-- Go constant `enumerations.ServiceExceptionInvocationCounterError = 6`. -/
def ServiceExceptionInvocationCounterError : Nat := 6

/-- Go struct `ExceptionResponse`; the two error fields are `uint8`
enumerations and the optional counter is `*uint32`. -/
structure ExceptionResponse where
  stateError : Nat
  serviceError : Nat
  invocationCounterData : Option Nat
deriving DecidableEq, Repr

/-- Go: `binary.BigEndian.Uint32` applied to four bytes. -/
def uint32BEOfBytes (b0 b1 b2 b3 : Nat) : Nat :=
  ((b0 * 256 + b1) * 256 + b2) * 256 + b3

/-- Go: `binary.BigEndian.PutUint32` into a four-byte buffer. -/
def uint32BEToBytes (v : Nat) : List Nat :=
  [(v >>> 24) &&& 0xFF, (v >>> 16) &&& 0xFF, (v >>> 8) &&& 0xFF, v &&& 0xFF]

/-- Go: `ExceptionResponse.FromBytes`. -/
def exceptionResponseFromBytes (sourceBytes : List Nat) :
    Except String ExceptionResponse :=
  match sourceBytes with
  | tag :: stateB :: serviceB :: rest =>
    if tag ≠ ExceptionResponseTag then
      .error "tag for ExceptionResponse is not 216"
    else if serviceB = ServiceExceptionInvocationCounterError then
      match rest with
      | c0 :: c1 :: c2 :: c3 :: _ =>
          .ok ⟨stateB, serviceB, some (uint32BEOfBytes c0 c1 c2 c3)⟩
      | _ => .error "insufficient data for invocation counter, need 4 bytes"
    else .ok ⟨stateB, serviceB, none⟩
  | _ => .error "insufficient data for ExceptionResponse, need at least 3 bytes"

/-- Go: `ExceptionResponse.ToBytes` (it never returns an error). -/
def exceptionResponseToBytes (e : ExceptionResponse) : List Nat :=
  [ExceptionResponseTag, e.stateError, e.serviceError] ++
    (match e.invocationCounterData with
     | some c => uint32BEToBytes c
     | none => [])

/-- Unfolding lemma for `exceptionResponseFromBytes` on a three-byte-or-more
input. -/
lemma exceptionResponseFromBytes_cons (tag st sv : Nat) (rest : List Nat) :
    exceptionResponseFromBytes (tag :: st :: sv :: rest) =
      (if tag ≠ ExceptionResponseTag then
        .error "tag for ExceptionResponse is not 216"
      else if sv = ServiceExceptionInvocationCounterError then
        (match rest with
         | c0 :: c1 :: c2 :: c3 :: _ =>
             .ok ⟨st, sv, some (uint32BEOfBytes c0 c1 c2 c3)⟩
         | _ => .error "insufficient data for invocation counter, need 4 bytes")
      else .ok ⟨st, sv, none⟩) := rfl

end Xdlms

/-- C8: parsing `D8 01 06 00 00 12 34` yields state-error 1, service-error 6
(`InvocationCounterError`) and invocation counter 0x1234; re-encoding that
value yields the same seven bytes; and for every parse from a tag-216 byte
sequence the counter is present (both in the parsed value and in its
re-encoding, which is 7 bytes long instead of 3) exactly when the
service-exception byte is 6. -/
theorem exception_response_s6 :
    Xdlms.exceptionResponseFromBytes [0xD8, 0x01, 0x06, 0x00, 0x00, 0x12, 0x34] =
      .ok ⟨1, 6, some 0x1234⟩ ∧
    Xdlms.exceptionResponseToBytes ⟨1, 6, some 0x1234⟩ =
      [0xD8, 0x01, 0x06, 0x00, 0x00, 0x12, 0x34] ∧
    (∀ (st sv : Nat) (rest : List Nat) (e : Xdlms.ExceptionResponse),
      Xdlms.exceptionResponseFromBytes (216 :: st :: sv :: rest) = .ok e →
        (e.invocationCounterData.isSome ↔
          sv = Xdlms.ServiceExceptionInvocationCounterError)) ∧
    (∀ (bytes : List Nat) (e : Xdlms.ExceptionResponse),
      Xdlms.exceptionResponseFromBytes bytes = .ok e →
        (Xdlms.exceptionResponseToBytes e).length =
          (if e.serviceError = Xdlms.ServiceExceptionInvocationCounterError
           then 7 else 3)) := by
  refine ⟨by decide, by decide, ?_, ?_⟩
  · intro st sv rest e h
    rw [Xdlms.exceptionResponseFromBytes_cons] at h
    rw [if_neg (by decide)] at h
    by_cases hsv : sv = Xdlms.ServiceExceptionInvocationCounterError
    · rw [if_pos hsv] at h
      match rest with
      | c0 :: c1 :: c2 :: c3 :: _ =>
        injection h with h2
        rw [← h2]
        simp [hsv]
      | [] => exact Except.noConfusion h
      | [_] => exact Except.noConfusion h
      | [_, _] => exact Except.noConfusion h
      | [_, _, _] => exact Except.noConfusion h
    · rw [if_neg hsv] at h
      injection h with h2
      rw [← h2]
      simpa using hsv
  · intro bytes e h
    match bytes with
    | tag :: stateB :: serviceB :: rest =>
      rw [Xdlms.exceptionResponseFromBytes_cons] at h
      by_cases htag : tag ≠ Xdlms.ExceptionResponseTag
      · rw [if_pos htag] at h; exact Except.noConfusion h
      · rw [if_neg htag] at h
        by_cases hsv : serviceB = Xdlms.ServiceExceptionInvocationCounterError
        · rw [if_pos hsv] at h
          match rest with
          | c0 :: c1 :: c2 :: c3 :: _ =>
            injection h with h2
            rw [← h2]
            simp [Xdlms.exceptionResponseToBytes, Xdlms.uint32BEToBytes, hsv]
          | [] => exact Except.noConfusion h
          | [_] => exact Except.noConfusion h
          | [_, _] => exact Except.noConfusion h
          | [_, _, _] => exact Except.noConfusion h
        · rw [if_neg hsv] at h
          injection h with h2
          rw [← h2]
          simp [Xdlms.exceptionResponseToBytes, hsv]
    | [] => exact Except.noConfusion h
    | [_] => exact Except.noConfusion h
    | [_, _] => exact Except.noConfusion h

/-- C8 witness: the general counter-presence facts applied to the concrete S6
byte sequence. -/
theorem exception_response_s6_witness :
    ((Xdlms.ExceptionResponse.mk 1 6 (some 0x1234)).invocationCounterData.isSome ↔
      (6 : Nat) = Xdlms.ServiceExceptionInvocationCounterError) ∧
    (Xdlms.exceptionResponseToBytes ⟨1, 6, some 0x1234⟩).length =
      (if (6 : Nat) = Xdlms.ServiceExceptionInvocationCounterError then 7 else 3) :=
  ⟨exception_response_s6.2.2.1 1 6 [0x00, 0x00, 0x12, 0x34] ⟨1, 6, some 0x1234⟩ (by decide),
   exception_response_s6.2.2.2 [0xD8, 0x01, 0x06, 0x00, 0x00, 0x12, 0x34]
     ⟨1, 6, some 0x1234⟩ (by decide)⟩

/-! ## CRC-CCITT (Go `encoding/crc.go`).  All arithmetic is Go `uint16`,
modelled as `Nat` masked with `0xFFFF` where the Go code can wrap. -/

namespace Crc

/-- One iteration of the inner loop of `initCRCTable`: both `crc` and `cVal`
are `uint16`, so the left shifts wrap at sixteen bits. -/
def crcTableStep (p : Nat × Nat) : Nat × Nat :=
  if ((p.1 ^^^ p.2) &&& 0x8000) ≠ 0 then
    (((p.1 <<< 1) ^^^ 0x1021) &&& 0xFFFF, (p.2 <<< 1) &&& 0xFFFF)
  else
    ((p.1 <<< 1) &&& 0xFFFF, (p.2 <<< 1) &&& 0xFFFF)

/-- Go: `initCRCTable` entry `crcTable[i]`: eight inner iterations starting
from `crc = 0`, `cVal = uint16(i) << 8`, polynomial constant `0x1021`. -/
def crcTable (i : Nat) : Nat :=
  (crcTableStep^[8] (0, (i <<< 8) &&& 0xFFFF)).1

/-- One iteration of the loop in `CRCCCITT.calculate`:
`tmp := ((crcValue >> 8) & 0xFF) ^ char;`
`crcValue = ((crcValue << 8) & 0xFF00) ^ crcTable[tmp]`. -/
def crcStep (crcValue char : Nat) : Nat :=
  ((crcValue <<< 8) &&& 0xFF00) ^^^
    crcTable (((crcValue >>> 8) &&& 0xFF) ^^^ char)

/-- Go: `CRCCCITT.calculate` with `startingValue = 0xFFFF`. -/
def crcCalculate (inputData : List Nat) : Nat :=
  inputData.foldl crcStep 0xFFFF

/-- Go: `reverseByte`: sum of `((b & (1 << i)) >> i) * (1 << (7 - i))` over
`i = 0..7`. -/
def reverseByte (byteToReverse : Nat) : Nat :=
  (List.range 8).foldl
    (fun acc i => acc + ((byteToReverse &&& (1 <<< i)) >>> i) * (1 <<< (7 - i)))
    0

/-- Go: `reverseByteMessage`. -/
def reverseByteMessage (msg : List Nat) : List Nat := msg.map reverseByte

/-- Go: `CRCCCITT.CalculateFor`: bit-reverse every input byte, run the table
CRC, bit-reverse and complement each result byte, order by `lsbFirst`. -/
def calculateFor (inputData : List Nat) (lsbFirst : Bool) : List Nat :=
  let reversedData := reverseByteMessage inputData
  let reversedCRC := crcCalculate reversedData
  let lsb := reverseByte (reversedCRC &&& 0x00FF) ^^^ 0xFF
  let msb := reverseByte ((reversedCRC &&& 0xFF00) >>> 8) ^^^ 0xFF
  if lsbFirst then [lsb, msb] else [msb, lsb]

/-- CRC verification as performed at the call sites (for example the FCS
check in the HDLC frame parsers): byte-wise equality of the received CRC with
the recomputed one. -/
def crcVerify (data receivedCRC : List Nat) (lsbFirst : Bool) : Bool :=
  calculateFor data lsbFirst == receivedCRC

/-- Flip bit `j` (0 = least significant) of the byte at index `k`. -/
def flipBitAt (l : List Nat) (k j : Nat) : List Nat :=
  l.set k (l.getD k 0 ^^^ (1 <<< j))

/-- The table entries are sixteen-bit values. -/
lemma crcTable_le (i : Nat) : crcTable i ≤ 0xFFFF := by
  have h8 : crcTableStep^[8] (0, (i <<< 8) &&& 0xFFFF) =
      crcTableStep (crcTableStep^[7] (0, (i <<< 8) &&& 0xFFFF)) :=
    Function.iterate_succ_apply' crcTableStep 7 _
  unfold crcTable
  rw [h8]
  unfold crcTableStep
  split <;> exact Nat.and_le_right

/-- The basis decomposition of a table entry: the XOR of the entries at the
set bits of the index. -/
def crcTableBits (i : Nat) : Nat :=
  (if i.testBit 0 then crcTable 1 else 0) ^^^
  (if i.testBit 1 then crcTable 2 else 0) ^^^
  (if i.testBit 2 then crcTable 4 else 0) ^^^
  (if i.testBit 3 then crcTable 8 else 0) ^^^
  (if i.testBit 4 then crcTable 16 else 0) ^^^
  (if i.testBit 5 then crcTable 32 else 0) ^^^
  (if i.testBit 6 then crcTable 64 else 0) ^^^
  (if i.testBit 7 then crcTable 128 else 0)

/-- Each table entry is the XOR of the basis entries of its index bits (the
table is GF(2)-linear in the index). -/
lemma crcTable_eq_bits : ∀ i < 256, crcTable i = crcTableBits i := by decide

/-- A table entry has zero low byte only at index zero. -/
lemma crcTable_lowByte : ∀ i < 256, crcTable i &&& 0xFF = 0 → i = 0 := by decide

/-- Nonzero single-byte indices have nonzero table entries. -/
lemma crcTable_ne_zero : ∀ e < 256, e ≠ 0 → crcTable e ≠ 0 := by decide

/-- The zero index has the zero entry. -/
lemma crcTable_zero : crcTable 0 = 0 := by decide

/-- Bit-reversal stays below 256 on bytes. -/
lemma reverseByte_lt : ∀ x < 256, reverseByte x < 256 := by decide

/-- Bit-reversal is an involution on bytes. -/
lemma reverseByte_invol : ∀ x < 256, reverseByte (reverseByte x) = x := by decide

/-- Bit-reversal maps a flip of bit `j` to a flip of bit `7 - j`. -/
lemma reverseByte_flip :
    ∀ x < 256, ∀ j < 8,
      reverseByte (x ^^^ (1 <<< j)) = reverseByte x ^^^ (1 <<< (7 - j)) := by
  decide

/-- XOR is left-commutative (used as part of an AC-rewriting simp set). -/
lemma xor_left_comm (a b c : Nat) : a ^^^ (b ^^^ c) = b ^^^ (a ^^^ c) := by
  rw [← Nat.xor_assoc, Nat.xor_comm a b, Nat.xor_assoc]

/-- An if-then-else over an XOR of conditions splits into an XOR of
if-then-elses. -/
lemma ite_bool_xor (a b : Bool) (c : Nat) :
    (if (a ^^ b) = true then c else 0) =
      (if a = true then c else 0) ^^^ (if b = true then c else 0) := by
  cases a <;> cases b <;> simp

/-- Regrouping an XOR of eight pairs into a pair of eight-fold XORs. -/
lemma xor8_split (a0 a1 a2 a3 a4 a5 a6 a7 b0 b1 b2 b3 b4 b5 b6 b7 : Nat) :
    (a0 ^^^ b0) ^^^ (a1 ^^^ b1) ^^^ (a2 ^^^ b2) ^^^ (a3 ^^^ b3) ^^^
      (a4 ^^^ b4) ^^^ (a5 ^^^ b5) ^^^ (a6 ^^^ b6) ^^^ (a7 ^^^ b7) =
    (a0 ^^^ a1 ^^^ a2 ^^^ a3 ^^^ a4 ^^^ a5 ^^^ a6 ^^^ a7) ^^^
      (b0 ^^^ b1 ^^^ b2 ^^^ b3 ^^^ b4 ^^^ b5 ^^^ b6 ^^^ b7) := by
  simp [Nat.xor_assoc, Nat.xor_comm, xor_left_comm]

/-- The basis decomposition is GF(2)-linear. -/
lemma crcTableBits_xor (i j : Nat) :
    crcTableBits (i ^^^ j) = crcTableBits i ^^^ crcTableBits j := by
  unfold crcTableBits
  simp only [Nat.testBit_xor, ite_bool_xor]
  exact xor8_split _ _ _ _ _ _ _ _ _ _ _ _ _ _ _ _

/-- The table is GF(2)-linear on byte indices. -/
lemma crcTable_xor {i j : Nat} (hi : i < 256) (hj : j < 256) :
    crcTable (i ^^^ j) = crcTable i ^^^ crcTable j := by
  have hij : i ^^^ j < 256 := Nat.xor_lt_two_pow (n := 8) hi hj
  rw [crcTable_eq_bits i hi, crcTable_eq_bits j hj, crcTable_eq_bits _ hij,
    crcTableBits_xor]

/-- Left shifts distribute over XOR. -/
lemma shiftLeft_xor_distrib (x y s : Nat) :
    (x ^^^ y) <<< s = (x <<< s) ^^^ (y <<< s) := by
  apply Nat.eq_of_testBit_eq
  intro k
  simp [Nat.testBit_shiftLeft, Nat.testBit_xor, Bool.and_xor_distrib_left]

/-- Right shifts distribute over XOR. -/
lemma shiftRight_xor_distrib (x y s : Nat) :
    (x ^^^ y) >>> s = (x >>> s) ^^^ (y >>> s) := by
  apply Nat.eq_of_testBit_eq
  intro k
  simp [Nat.testBit_shiftRight, Nat.testBit_xor]

/-- The CRC step is GF(2)-affine: differences propagate independently of the
running value, one `crcStep _ 0` per processed byte. -/
lemma crcStep_xor (c d b e : Nat) (hb : b < 256) (he : e < 256) :
    crcStep (c ^^^ d) (b ^^^ e) = crcStep c b ^^^ crcStep d e := by
  unfold crcStep
  rw [shiftLeft_xor_distrib, Nat.and_xor_distrib_right,
    shiftRight_xor_distrib, Nat.and_xor_distrib_right]
  have hA : (c >>> 8) &&& 0xFF < 256 :=
    lt_of_le_of_lt Nat.and_le_right (by norm_num)
  have hB : (d >>> 8) &&& 0xFF < 256 :=
    lt_of_le_of_lt Nat.and_le_right (by norm_num)
  have hidx : (((c >>> 8) &&& 0xFF) ^^^ ((d >>> 8) &&& 0xFF)) ^^^ (b ^^^ e) =
      (((c >>> 8) &&& 0xFF) ^^^ b) ^^^ (((d >>> 8) &&& 0xFF) ^^^ e) := by
    simp [Nat.xor_assoc, Nat.xor_comm, xor_left_comm]
  rw [hidx,
    crcTable_xor (Nat.xor_lt_two_pow (n := 8) hA hb)
      (Nat.xor_lt_two_pow (n := 8) hB he)]
  simp [Nat.xor_assoc, Nat.xor_comm, xor_left_comm]

/-- A difference in the fold start propagates through the remaining bytes as
iterated `crcStep _ 0`. -/
lemma foldl_crcStep_xor (zs : List Nat) (hz : ∀ z ∈ zs, z < 256) :
    ∀ c d : Nat,
      zs.foldl crcStep (c ^^^ d) =
        zs.foldl crcStep c ^^^ (fun x => crcStep x 0)^[zs.length] d := by
  induction zs with
  | nil => intro c d; simp
  | cons z zs ih =>
    intro c d
    have hz0 : z < 256 := hz z (by simp)
    have hzs : ∀ x ∈ zs, x < 256 := fun x hx => hz x (by simp [hx])
    have h1 : crcStep (c ^^^ d) z = crcStep c z ^^^ crcStep d 0 := by
      have h2 := crcStep_xor c d z 0 hz0 (by norm_num)
      simpa using h2
    simp only [List.foldl_cons, List.length_cons, h1]
    rw [ih hzs (crcStep c z) (crcStep d 0), Function.iterate_succ_apply]

/-- Every CRC step result is a sixteen-bit value. -/
lemma crcStep_lt (c b : Nat) : crcStep c b < 65536 := by
  unfold crcStep
  exact Nat.xor_lt_two_pow (n := 16)
    (lt_of_le_of_lt Nat.and_le_right (by norm_num))
    (lt_of_le_of_lt (crcTable_le _) (by norm_num))

/-- The running CRC value is a sixteen-bit value. -/
lemma crcCalculate_lt (l : List Nat) : crcCalculate l < 65536 := by
  unfold crcCalculate
  have h : ∀ (zs : List Nat) (c : Nat), c < 65536 → zs.foldl crcStep c < 65536 := by
    intro zs
    induction zs with
    | nil => intro c hc; simpa using hc
    | cons z zs ih => intro c _; exact ih (crcStep c z) (crcStep_lt c z)
  exact h _ _ (by norm_num)

/-- Masking a shifted value: `(x << 8) & 0xFF00 = (x % 256) * 256`. -/
lemma shiftLeft_and_ff00 (x : Nat) : (x <<< 8) &&& 0xFF00 = (x % 256) * 256 := by
  apply Nat.eq_of_testBit_eq
  intro k
  have h1 : (0xFF00 : Nat) = (2 ^ 8 - 1) <<< 8 := by rfl
  have h2 : ((x % 256) * 256 : Nat) = (x % 2 ^ 8) <<< 8 := by
    rw [Nat.shiftLeft_eq]; norm_num
  rw [h1, h2, Nat.testBit_and, Nat.testBit_shiftLeft, Nat.testBit_shiftLeft,
    Nat.testBit_shiftLeft, Nat.testBit_two_pow_sub_one, Nat.testBit_mod_two_pow]
  by_cases hk : 8 ≤ k
  · simp [hk, Bool.and_comm, Bool.and_assoc, Bool.and_left_comm]
  · simp [hk]

/-- The mask `&&& 0xFF` is reduction modulo 256. -/
lemma and_ff_eq_mod (x : Nat) : x &&& 0xFF = x % 256 := by
  have h := Nat.and_pow_two_sub_one_eq_mod x 8
  norm_num at h
  exact h

/-- A nonzero sixteen-bit difference stays nonzero through one zero-byte
propagation step (multiplication by x^8 is invertible modulo the CRC
polynomial). -/
lemma crcStep_zero_ne (d : Nat) (hd : d < 65536) (hne : d ≠ 0) :
    crcStep d 0 ≠ 0 := by
  intro h0
  unfold crcStep at h0
  rw [Nat.xor_zero] at h0
  have heq : (d <<< 8) &&& 0xFF00 = crcTable ((d >>> 8) &&& 0xFF) :=
    Nat.xor_eq_zero.mp h0
  have hlow : crcTable ((d >>> 8) &&& 0xFF) &&& 0xFF = 0 := by
    rw [← heq, shiftLeft_and_ff00, and_ff_eq_mod, Nat.mul_mod_left]
  have hidx : (d >>> 8) &&& 0xFF < 256 :=
    lt_of_le_of_lt Nat.and_le_right (by norm_num)
  have h3 : (d >>> 8) &&& 0xFF = 0 := crcTable_lowByte _ hidx hlow
  have hd8 : d >>> 8 = d / 256 := by
    rw [Nat.shiftRight_eq_div_pow]
  have h4 : d / 256 = 0 := by
    have h5 : d / 256 % 256 = 0 := by rw [← and_ff_eq_mod, ← hd8]; exact h3
    have h6 : d / 256 < 256 := by omega
    omega
  rw [h3, crcTable_zero] at heq
  rw [shiftLeft_and_ff00] at heq
  have h7 : d % 256 = 0 := by
    rcases Nat.mul_eq_zero.mp heq with h | h
    · exact h
    · omega
  omega

/-- Iterated zero-byte propagation keeps a nonzero sixteen-bit difference
nonzero and sixteen-bit. -/
lemma crcStep_zero_iter_ne (n : Nat) :
    ∀ d, d < 65536 → d ≠ 0 →
      (fun x => crcStep x 0)^[n] d ≠ 0 ∧ (fun x => crcStep x 0)^[n] d < 65536 := by
  induction n with
  | zero => intro d hd hne; exact ⟨hne, hd⟩
  | succ n ih =>
    intro d hd hne
    rw [Function.iterate_succ_apply]
    exact ih (crcStep d 0) (crcStep_lt d 0) (crcStep_zero_ne d hd hne)

/-- The mask `&&& 0xFF00` extracts the middle byte arithmetically. -/
lemma and_ff00_eq (x : Nat) : x &&& 0xFF00 = (x / 256 % 256) * 256 := by
  apply Nat.eq_of_testBit_eq
  intro k
  have h1 : (0xFF00 : Nat) = (2 ^ 8 - 1) <<< 8 := by rfl
  have h2 : (x / 256 % 256) * 256 = ((x >>> 8) % 2 ^ 8) <<< 8 := by
    rw [Nat.shiftLeft_eq, Nat.shiftRight_eq_div_pow]
    norm_num
  rw [h1, h2, Nat.testBit_and, Nat.testBit_shiftLeft, Nat.testBit_shiftLeft,
    Nat.testBit_two_pow_sub_one, Nat.testBit_mod_two_pow, Nat.testBit_shiftRight]
  by_cases hk : 8 ≤ k
  · have hkk : 8 + (k - 8) = k := by omega
    rw [hkk]
    simp [hk, Bool.and_comm, Bool.and_assoc, Bool.and_left_comm]
  · simp [hk]

/-- Feeding a byte into a zero running value yields its table entry. -/
lemma crcStep_zero_left (e : Nat) : crcStep 0 e = crcTable e := by
  simp [crcStep]

/-- Flipping (XOR-ing) the byte at index `k` changes the running CRC by the
propagated table entry of the error byte. -/
lemma crcCalculate_set_xor (l : List Nat) (hl : ∀ z ∈ l, z < 256) (k : Nat)
    (hk : k < l.length) (e : Nat) (he : e < 256) :
    crcCalculate (l.set k (l.getD k 0 ^^^ e)) =
      crcCalculate l ^^^
        (fun x => crcStep x 0)^[l.length - (k + 1)] (crcTable e) := by
  have hgd : l.getD k 0 = l[k] := by
    rw [List.getD_eq_getElem?_getD, List.getElem?_eq_getElem hk]
    rfl
  have hw : l[k] < 256 := hl _ (l.getElem_mem hk)
  have hset : l.set k (l.getD k 0 ^^^ e) =
      l.take k ++ (l[k] ^^^ e) :: l.drop (k + 1) := by
    rw [hgd]
    exact List.set_eq_take_cons_drop _ hk
  have hself : l.take k ++ l[k] :: l.drop (k + 1) = l := by
    conv_rhs => rw [← List.take_append_drop k l, List.drop_eq_getElem_cons hk]
  have hdrop : ∀ z ∈ l.drop (k + 1), z < 256 :=
    fun z hz => hl z (List.drop_subset _ _ hz)
  unfold crcCalculate
  rw [hset, List.foldl_append, List.foldl_cons]
  conv_rhs => rw [← hself]
  rw [List.foldl_append, List.foldl_cons]
  set c0 := (l.take k).foldl crcStep 0xFFFF with hc0
  have hstep : crcStep c0 (l[k] ^^^ e) = crcStep c0 l[k] ^^^ crcTable e := by
    have h3 := crcStep_xor c0 0 l[k] e hw he
    simpa [crcStep_zero_left] using h3
  rw [hstep, foldl_crcStep_xor _ hdrop, List.length_drop, hself]

/-- The two CRC output bytes determine the sixteen-bit CRC value. -/
lemma crc_out_inj (c c' : Nat) (hc : c < 65536) (hc' : c' < 65536)
    (hlsb : reverseByte (c' &&& 0xFF) ^^^ 0xFF = reverseByte (c &&& 0xFF) ^^^ 0xFF)
    (hmsb : reverseByte ((c' &&& 0xFF00) >>> 8) ^^^ 0xFF =
      reverseByte ((c &&& 0xFF00) >>> 8) ^^^ 0xFF) :
    c' = c := by
  have hcan : ∀ a b : Nat, a ^^^ 0xFF = b ^^^ 0xFF → a = b := by
    intro a b h
    have := congrArg (fun x => x ^^^ 0xFF) h
    simpa [Nat.xor_cancel_right] using this
  have hrb : ∀ a b : Nat, a < 256 → b < 256 → reverseByte a = reverseByte b → a = b := by
    intro a b ha hb h
    rw [← reverseByte_invol a ha, ← reverseByte_invol b hb, h]
  have hmod : ∀ x : Nat, x &&& 0xFF < 256 := by
    intro x
    exact lt_of_le_of_lt Nat.and_le_right (by norm_num)
  have hdiv : ∀ x : Nat, (x &&& 0xFF00) >>> 8 = x / 256 % 256 := by
    intro x
    rw [and_ff00_eq, Nat.shiftRight_eq_div_pow]
    omega
  have hdivlt : ∀ x : Nat, (x &&& 0xFF00) >>> 8 < 256 := by
    intro x; rw [hdiv]; omega
  have h1 : c' &&& 0xFF = c &&& 0xFF :=
    hrb _ _ (hmod c') (hmod c) (hcan _ _ hlsb)
  have h2 : (c' &&& 0xFF00) >>> 8 = (c &&& 0xFF00) >>> 8 :=
    hrb _ _ (hdivlt c') (hdivlt c) (hcan _ _ hmsb)
  rw [and_ff_eq_mod, and_ff_eq_mod] at h1
  rw [hdiv, hdiv] at h2
  omega

/-- `CalculateFor` written without the intermediate lets. -/
lemma calculateFor_eq (inputData : List Nat) (lsbFirst : Bool) :
    calculateFor inputData lsbFirst =
      (if lsbFirst then
        [reverseByte (crcCalculate (reverseByteMessage inputData) &&& 0xFF) ^^^ 0xFF,
         reverseByte ((crcCalculate (reverseByteMessage inputData) &&& 0xFF00) >>> 8) ^^^ 0xFF]
      else
        [reverseByte ((crcCalculate (reverseByteMessage inputData) &&& 0xFF00) >>> 8) ^^^ 0xFF,
         reverseByte (crcCalculate (reverseByteMessage inputData) &&& 0xFF) ^^^ 0xFF]) := rfl

/-- Flipping one bit of one byte changes the CRC output bytes. -/
lemma calculateFor_flip_ne (b : List Nat) (hb : ∀ x ∈ b, x < 256)
    (lsbFirst : Bool) (k : Nat) (hk : k < b.length) (j : Nat) (hj : j < 8) :
    calculateFor (flipBitAt b k j) lsbFirst ≠ calculateFor b lsbFirst := by
  set l := reverseByteMessage b with hldef
  have hllen : l.length = b.length := List.length_map _ _
  have hkl : k < l.length := by rw [hllen]; exact hk
  have hl : ∀ z ∈ l, z < 256 := by
    intro z hz
    rw [hldef] at hz
    rcases List.mem_map.mp hz with ⟨x, hx, hfx⟩
    rw [← hfx]
    exact reverseByte_lt x (hb x hx)
  have hgd : b.getD k 0 = b[k] := by
    rw [List.getD_eq_getElem?_getD, List.getElem?_eq_getElem hk]
    rfl
  have hmapflip : reverseByteMessage (flipBitAt b k j) =
      l.set k (l.getD k 0 ^^^ (1 <<< (7 - j))) := by
    unfold reverseByteMessage flipBitAt
    rw [List.map_set, hgd,
      reverseByte_flip b[k] (hb _ (b.getElem_mem hk)) j hj]
    congr 1
    rw [List.getD_eq_getElem?_getD, List.getElem?_eq_getElem hkl]
    simp only [hldef, reverseByteMessage, List.getElem_map, Option.getD_some]
  have he : (1 <<< (7 - j)) < 256 := by
    rw [Nat.one_shiftLeft]
    calc 2 ^ (7 - j) ≤ 2 ^ 7 := Nat.pow_le_pow_right (by norm_num) (by omega)
    _ < 256 := by norm_num
  have hene : (1 <<< (7 - j)) ≠ 0 := by
    rw [Nat.one_shiftLeft]
    exact (Nat.two_pow_pos _).ne'
  have hD := crcStep_zero_iter_ne (l.length - (k + 1)) (crcTable (1 <<< (7 - j)))
    (lt_of_le_of_lt (crcTable_le _) (by norm_num))
    (crcTable_ne_zero _ he hene)
  set D := (fun x => crcStep x 0)^[l.length - (k + 1)] (crcTable (1 <<< (7 - j)))
    with hDdef
  have hcalc : crcCalculate (reverseByteMessage (flipBitAt b k j)) =
      crcCalculate l ^^^ D := by
    rw [hmapflip]
    exact crcCalculate_set_xor l hl k hkl _ he
  set c := crcCalculate l with hcdef
  have hc : c < 65536 := crcCalculate_lt l
  have hc' : c ^^^ D < 65536 := Nat.xor_lt_two_pow (n := 16) hc hD.2
  have hne : c ^^^ D ≠ c := by
    intro h
    apply hD.1
    calc D = c ^^^ (c ^^^ D) := (Nat.xor_cancel_left _ _).symm
    _ = c ^^^ c := by rw [h]
    _ = 0 := Nat.xor_self _
  intro heq
  rw [calculateFor_eq, calculateFor_eq, hcalc, ← hcdef] at heq
  cases lsbFirst with
  | true =>
    have hpair :
        (reverseByte ((c ^^^ D) &&& 0xFF) ^^^ 0xFF =
          reverseByte (c &&& 0xFF) ^^^ 0xFF) ∧
        (reverseByte (((c ^^^ D) &&& 0xFF00) >>> 8) ^^^ 0xFF =
          reverseByte ((c &&& 0xFF00) >>> 8) ^^^ 0xFF) := by
      simpa using heq
    exact hne (crc_out_inj c (c ^^^ D) hc hc' hpair.1 hpair.2)
  | false =>
    have hpair :
        (reverseByte (((c ^^^ D) &&& 0xFF00) >>> 8) ^^^ 0xFF =
          reverseByte ((c &&& 0xFF00) >>> 8) ^^^ 0xFF) ∧
        (reverseByte ((c ^^^ D) &&& 0xFF) ^^^ 0xFF =
          reverseByte (c &&& 0xFF) ^^^ 0xFF) := by
      simpa using heq
    exact hne (crc_out_inj c (c ^^^ D) hc hc' hpair.2 hpair.1)

/-- Flipping a bit inside the list changes the list. -/
lemma flipBitAt_ne (l : List Nat) (k j : Nat) (hk : k < l.length) :
    flipBitAt l k j ≠ l := by
  intro heq
  have h1 : (flipBitAt l k j).getD k 0 = l.getD k 0 ^^^ (1 <<< j) := by
    unfold flipBitAt
    rw [List.getD_eq_getElem?_getD, List.getElem?_set_self hk]
    rfl
  rw [heq] at h1
  have h2 : (1 <<< j) = 0 := by
    calc (1 <<< j) = l.getD k 0 ^^^ (l.getD k 0 ^^^ (1 <<< j)) :=
          (Nat.xor_cancel_left _ _).symm
    _ = l.getD k 0 ^^^ l.getD k 0 := by rw [← h1]
    _ = 0 := Nat.xor_self _
  rw [Nat.one_shiftLeft] at h2
  exact (Nat.two_pow_pos j).ne' h2

/-- The CRC output is always two bytes. -/
lemma calculateFor_length (inputData : List Nat) (lsbFirst : Bool) :
    (calculateFor inputData lsbFirst).length = 2 := by
  cases lsbFirst <;> rfl

end Crc

/-- C6: for every byte sequence, verifying the sequence against its own
`CalculateFor` CRC by call-site equality succeeds, and flipping any single
bit of the data or of the two CRC bytes makes that equality verification
fail. -/
theorem crc_roundtrip_bitflip (b : List Nat) (hb : ∀ x ∈ b, x < 256)
    (lsbFirst : Bool) :
    Crc.crcVerify b (Crc.calculateFor b lsbFirst) lsbFirst = true ∧
    (∀ k, k < b.length → ∀ j, j < 8 →
      Crc.crcVerify (Crc.flipBitAt b k j) (Crc.calculateFor b lsbFirst)
        lsbFirst = false) ∧
    (∀ i, i < 2 → ∀ j, j < 8 →
      Crc.crcVerify b (Crc.flipBitAt (Crc.calculateFor b lsbFirst) i j)
        lsbFirst = false) := by
  refine ⟨by simp [Crc.crcVerify], ?_, ?_⟩
  · intro k hk j hj
    unfold Crc.crcVerify
    rw [beq_eq_false_iff_ne]
    exact Crc.calculateFor_flip_ne b hb lsbFirst k hk j hj
  · intro i hi j hj
    unfold Crc.crcVerify
    rw [beq_eq_false_iff_ne]
    intro heq
    have hlen : i < (Crc.calculateFor b lsbFirst).length := by
      rw [Crc.calculateFor_length]; exact hi
    exact Crc.flipBitAt_ne _ i j hlen heq.symm

/-- C6 witness: the round-trip and both flip failures at the concrete message
`[0x01, 0x02]`, data bit 0 of byte 0 and CRC bit 0 of byte 0. -/
theorem crc_roundtrip_bitflip_witness :
    Crc.crcVerify [1, 2] (Crc.calculateFor [1, 2] false) false = true ∧
    Crc.crcVerify (Crc.flipBitAt [1, 2] 0 0) (Crc.calculateFor [1, 2] false)
      false = false ∧
    Crc.crcVerify [1, 2] (Crc.flipBitAt (Crc.calculateFor [1, 2] false) 0 0)
      false = false := by
  have t := crc_roundtrip_bitflip [1, 2] (by decide) false
  exact ⟨t.1, t.2.1 0 (by decide) 0 (by decide), t.2.2 0 (by decide) 0 (by decide)⟩

/-! ## HDLC frames (Go `hdlc` frame file: `BaseHdlcFrame` and the five
concrete frame types).  Go method calls on an embedded struct are statically
dispatched, so the base frame methods call each other, never a concrete
frame's overrides. -/

namespace Hdlc

/-- Go `AddressType` values. -/
inductive AddressType where
  | client
  | server
deriving DecidableEq, Repr

/-- Go struct `HdlcAddress`. -/
structure HdlcAddress where
  logicalAddress : Nat
  physicalAddress : Option Nat
  addressType : AddressType
  extendedAddressing : Bool
deriving DecidableEq, Repr

/-- Go: `HdlcAddress.splitAddress`, returning `(higher, lower)` bytes. -/
def splitAddress (address : Nat) : Nat × Nat :=
  if address > 0b01111111 then
    (((address &&& 0b0011111110000000) >>> 6) &&& 0xFF,
     ((address &&& 0b0000000001111111) <<< 1) &&& 0xFF)
  else
    (0, (address <<< 1) &&& 0xFF)

/-- Go: `HdlcAddress.ToBytes`: client addresses are one byte; server
addresses two or four bytes with the end-of-address bit on the last byte;
zero bytes are elided unless extended addressing is set. -/
def HdlcAddress.toBytes (a : HdlcAddress) : List Nat :=
  let out : List Nat :=
    match a.addressType with
    | .client => [((a.logicalAddress <<< 1) ||| 0b00000001) &&& 0xFF]
    | .server =>
      let logical := splitAddress a.logicalAddress
      match a.physicalAddress with
      | some p =>
        let physical := splitAddress p
        [logical.1, logical.2, physical.1, physical.2 ||| 0b00000001]
      | none => [logical.1, logical.2 ||| 0b00000001]
  out.filter (fun addr => decide (addr ≠ 0) || a.extendedAddressing)

/-- Go: `HdlcAddress.Length`. -/
def HdlcAddress.length (a : HdlcAddress) : Nat := a.toBytes.length

/-- Go struct `DlmsHdlcFrameFormatField` (`Length` is `uint16`). -/
structure DlmsHdlcFrameFormatField where
  length : Nat
  segmented : Bool
deriving DecidableEq, Repr

/-- Go: `DlmsHdlcFrameFormatField.ToBytes`. -/
def DlmsHdlcFrameFormatField.toBytes (d : DlmsHdlcFrameFormatField) : List Nat :=
  let total := (0b1010000000000000 ||| d.length) |||
    (if d.segmented then 0b0000100000000000 else 0)
  [(total >>> 8) &&& 0xFF, total &&& 0xFF]

/-- Go constant `HDLCFlag = 0x7E`. -/
def HDLCFlag : Nat := 0x7E

/-- Go constant `FixedLengthBytes = 7`. -/
def FixedLengthBytes : Nat := 7

/-- Go struct `BaseHdlcFrame`. -/
structure BaseHdlcFrame where
  destinationAddress : HdlcAddress
  sourceAddress : HdlcAddress
  payload : List Nat
  segmented : Bool
  final : Bool
deriving DecidableEq, Repr

/-- Go: `BaseHdlcFrame.GetControlField`, whose body is
`panic("GetControlField must be implemented by specific frame type")`,
modelled as `none`.  Go promotes methods of an embedded struct without
dynamic dispatch, so `BaseHdlcFrame.HeaderContent` (and through it
`FrameContent`, `HCS`, `FCS` and `ToBytes`) always invokes this base method,
never the `GetControlField` override of the concrete frame type. -/
def BaseHdlcFrame.getControlField (_ : BaseHdlcFrame) : Option (List Nat) :=
  none

/-- Go: `BaseHdlcFrame.Information`. -/
def BaseHdlcFrame.information (b : BaseHdlcFrame) : List Nat := b.payload

/-- Go: `BaseHdlcFrame.FrameLength`. -/
def BaseHdlcFrame.frameLength (b : BaseHdlcFrame) : Nat :=
  FixedLengthBytes + b.destinationAddress.length + b.sourceAddress.length +
    b.information.length

/-- Go: `BaseHdlcFrame.HeaderContent`: format field (`uint16` length) plus
addresses plus the control byte from the (panicking) base
`GetControlField`. -/
def BaseHdlcFrame.headerContent (b : BaseHdlcFrame) : Option (List Nat) := do
  let formatBytes :=
    (DlmsHdlcFrameFormatField.mk (b.frameLength % 65536) b.segmented).toBytes
  let controlBytes ← b.getControlField
  pure (formatBytes ++ b.destinationAddress.toBytes ++
    b.sourceAddress.toBytes ++ controlBytes)

/-- Go: `BaseHdlcFrame.HCS` (CRC over the header when it is nonempty). -/
def BaseHdlcFrame.hcs (b : BaseHdlcFrame) : Option (List Nat) := do
  let headerContent ← b.headerContent
  if headerContent.length = 0 then pure []
  else pure (Crc.calculateFor headerContent false)

/-- Go: `BaseHdlcFrame.FrameContent`. -/
def BaseHdlcFrame.frameContent (b : BaseHdlcFrame) : Option (List Nat) := do
  let header ← b.headerContent
  let hcs ← b.hcs
  pure (header ++ hcs ++ b.information)

/-- Go: `BaseHdlcFrame.FCS` (CRC over the frame content). -/
def BaseHdlcFrame.fcs (b : BaseHdlcFrame) : Option (List Nat) := do
  let frameContent ← b.frameContent
  pure (Crc.calculateFor frameContent false)

/-- Go: `BaseHdlcFrame.ToBytes`:
`0x7E ++ FrameContent ++ FCS ++ 0x7E`. -/
def BaseHdlcFrame.toBytes (b : BaseHdlcFrame) : Option (List Nat) := do
  let frameContent ← b.frameContent
  let fcs ← b.fcs
  pure ([HDLCFlag] ++ frameContent ++ fcs ++ [HDLCFlag])

/-- Go struct `SetNormalResponseModeFrame` (embeds `*BaseHdlcFrame`). -/
structure SetNormalResponseModeFrame where
  toBase : BaseHdlcFrame
deriving DecidableEq, Repr

/-- Go: `NewSetNormalResponseModeFrame` (no payload, final). -/
def NewSetNormalResponseModeFrame (destinationAddress sourceAddress : HdlcAddress) :
    SetNormalResponseModeFrame :=
  ⟨⟨destinationAddress, sourceAddress, [], false, true⟩⟩

/-- The `ToBytes` reachable on a SNRM frame value: the promoted
`BaseHdlcFrame.ToBytes` (the SNRM overrides of `HCS`, `Information`,
`FrameLength` and `GetControlField` are not called from it). -/
def SetNormalResponseModeFrame.toBytes (s : SetNormalResponseModeFrame) :
    Option (List Nat) :=
  s.toBase.toBytes

/-- Go struct `InformationFrame` (embeds `*BaseHdlcFrame`). -/
structure InformationFrame where
  toBase : BaseHdlcFrame
  sendSequenceNumber : Nat
  receiveSequenceNumber : Nat
deriving DecidableEq, Repr

/-- The `ToBytes` reachable on an information frame value: the promoted
`BaseHdlcFrame.ToBytes`. -/
def InformationFrame.toBytes (i : InformationFrame) : Option (List Nat) :=
  i.toBase.toBytes

end Hdlc

/-- C1: frame serialisation never yields bytes, so the claimed parse-encode
round trip never holds.  Every concrete frame type inherits
`BaseHdlcFrame.ToBytes`, whose call chain reaches the base `GetControlField`
stub and panics, for every frame value — including the spec's S1 SNRM frame
(client 0x10, server logical 1) and every information frame.  (The `FromBytes`
parsers panic the same way when they recompute the FCS.) -/
theorem hdlc_frame_tobytes_panics :
    (∀ b : Hdlc.BaseHdlcFrame, b.toBytes = none) ∧
    (Hdlc.NewSetNormalResponseModeFrame
        ⟨1, none, .server, false⟩ ⟨0x10, none, .client, false⟩).toBytes = none ∧
    (∀ (dest src : Hdlc.HdlcAddress) (payload : List Nat)
        (s r : Nat) (seg fin : Bool),
      (Hdlc.InformationFrame.mk ⟨dest, src, payload, seg, fin⟩ s r).toBytes =
        none) :=
  ⟨fun _ => rfl, rfl, fun _ _ _ _ _ _ _ => rfl⟩

/-! ## Conformance block (Go `xdlms/conformance.go`) -/

namespace Xdlms

/-- Go struct `Conformance` with its seventeen capability flags. -/
structure Conformance where
  generalProtection : Bool
  generalBlockTransfer : Bool
  deltaValueEncoding : Bool
  attribute0SupportedWithSet : Bool
  priorityManagementSupported : Bool
  attribute0SupportedWithGet : Bool
  blockTransferWithGetOrRead : Bool
  blockTransferWithSetOrWrite : Bool
  blockTransferWithAction : Bool
  multipleReferences : Bool
  dataNotification : Bool
  access : Bool
  get : Bool
  set : Bool
  selectiveAccess : Bool
  eventNotification : Bool
  action : Bool
deriving DecidableEq, Repr

/-- The 32-bit accumulator `out` of `Conformance.ToBytes`: each set flag
contributes `1 << ConformanceBitPosition[name]`, with the positions of the
source's map (general_protection 22, general_block_transfer 21,
delta_value_encoding 17, attribute_0_supported_with_set 15,
priority_management_supported 14, attribute_0_supported_with_get 13,
block_transfer_with_get_or_read 12, block_transfer_with_set_or_write 11,
block_transfer_with_action 10, multiple_references 9, data_notification 7,
access 6, get 4, set 3, selective_access 2, event_notification 1,
action 0). -/
def conformanceInteger (c : Conformance) : Nat :=
  (if c.generalProtection then 1 <<< 22 else 0) |||
  (if c.generalBlockTransfer then 1 <<< 21 else 0) |||
  (if c.deltaValueEncoding then 1 <<< 17 else 0) |||
  (if c.attribute0SupportedWithSet then 1 <<< 15 else 0) |||
  (if c.priorityManagementSupported then 1 <<< 14 else 0) |||
  (if c.attribute0SupportedWithGet then 1 <<< 13 else 0) |||
  (if c.blockTransferWithGetOrRead then 1 <<< 12 else 0) |||
  (if c.blockTransferWithSetOrWrite then 1 <<< 11 else 0) |||
  (if c.blockTransferWithAction then 1 <<< 10 else 0) |||
  (if c.multipleReferences then 1 <<< 9 else 0) |||
  (if c.dataNotification then 1 <<< 7 else 0) |||
  (if c.access then 1 <<< 6 else 0) |||
  (if c.get then 1 <<< 4 else 0) |||
  (if c.set then 1 <<< 3 else 0) |||
  (if c.selectiveAccess then 1 <<< 2 else 0) |||
  (if c.eventNotification then 1 <<< 1 else 0) |||
  (if c.action then 1 <<< 0 else 0)

/-- Go: `binary.BigEndian.PutUint32(b, v)`.  Its first statement is the
bounds check `_ = b[3]`, which panics (modelled as `none`) whenever the
destination slice is shorter than four bytes; otherwise the first four bytes
of the slice become the big-endian encoding of `v`. -/
def putUint32BE (buf : List Nat) (v : Nat) : Option (List Nat) :=
  if buf.length < 4 then none
  else some ([(v >>> 24) &&& 0xFF, (v >>> 16) &&& 0xFF,
              (v >>> 8) &&& 0xFF, v &&& 0xFF] ++ buf.drop 4)

/-- Go: `Conformance.ToBytes`.  The source allocates `result :=
make([]byte, 4)`, sets `result[0] = 0x00`, then calls
`binary.BigEndian.PutUint32(result[1:], out)` — on a slice of length three —
and would return `result[:4]`. -/
def conformanceToBytes (c : Conformance) : Option (List Nat) :=
  let out := conformanceInteger c
  let result : List Nat := [0, 0, 0, 0]
  match putUint32BE (result.drop 1) out with
  | none => none
  | some written => some ((result.take 1 ++ written).take 4)

/-- Go: `Conformance.FromBytes`: skip the unused-bits octet, read the three
following bytes as a big-endian integer and test each documented bit. -/
def conformanceFromBytes (data : List Nat) : Except String Conformance :=
  if data.length < 4 then
    .error "insufficient data for Conformance: need at least 4 bytes"
  else
    let ir := uint32BEOfBytes 0 (data.getD 1 0) (data.getD 2 0) (data.getD 3 0)
    .ok ⟨decide (ir &&& (1 <<< 22) ≠ 0), decide (ir &&& (1 <<< 21) ≠ 0),
         decide (ir &&& (1 <<< 17) ≠ 0), decide (ir &&& (1 <<< 15) ≠ 0),
         decide (ir &&& (1 <<< 14) ≠ 0), decide (ir &&& (1 <<< 13) ≠ 0),
         decide (ir &&& (1 <<< 12) ≠ 0), decide (ir &&& (1 <<< 11) ≠ 0),
         decide (ir &&& (1 <<< 10) ≠ 0), decide (ir &&& (1 <<< 9) ≠ 0),
         decide (ir &&& (1 <<< 7) ≠ 0), decide (ir &&& (1 <<< 6) ≠ 0),
         decide (ir &&& (1 <<< 4) ≠ 0), decide (ir &&& (1 <<< 3) ≠ 0),
         decide (ir &&& (1 <<< 2) ≠ 0), decide (ir &&& (1 <<< 1) ≠ 0),
         decide (ir &&& (1 <<< 0) ≠ 0)⟩

/-- The Conformance value with every flag cleared. -/
def conformanceAllFalse : Conformance :=
  ⟨false, false, false, false, false, false, false, false, false,
   false, false, false, false, false, false, false, false⟩

/-- A Conformance value with a single named flag set, indexed 0..16 in field
order. -/
def conformanceSingle (i : Nat) : Conformance :=
  ⟨i = 0, i = 1, i = 2, i = 3, i = 4, i = 5, i = 6, i = 7, i = 8,
   i = 9, i = 10, i = 11, i = 12, i = 13, i = 14, i = 15, i = 16⟩

/-- The seventeen documented bit positions, in field order of
`Conformance`. -/
def conformanceBitPositions : List Nat :=
  [22, 21, 17, 15, 14, 13, 12, 11, 10, 9, 7, 6, 4, 3, 2, 1, 0]

/-- The four-byte encoding (unused-bits octet plus three-byte big-endian
bit-string) holding only the flag of field index `i`. -/
def conformanceSingleBytes (i : Nat) : List Nat :=
  let v := 1 <<< (conformanceBitPositions.getD i 0)
  [0, (v >>> 16) &&& 0xFF, (v >>> 8) &&& 0xFF, v &&& 0xFF]

end Xdlms

/-- C3: the code never returns the claimed four-byte encoding.
`Conformance.ToBytes` calls `binary.BigEndian.PutUint32` on the slice
`result[1:]` of length three, which panics on the `_ = b[3]` bounds check for
every Conformance value, so the method cannot return the claimed `0x00` plus
three-byte bit-string; the decoding side does read every flag at its
documented bit position (checked here for each of the 17 single-flag
bit-strings). -/
theorem conformance_tobytes_panics :
    (∀ c : Xdlms.Conformance, Xdlms.conformanceToBytes c = none) ∧
    Xdlms.conformanceToBytes Xdlms.conformanceAllFalse = none ∧
    (∀ i : Fin 17,
      Xdlms.conformanceFromBytes (Xdlms.conformanceSingleBytes i.val) =
        .ok (Xdlms.conformanceSingle i.val)) :=
  ⟨fun _ => rfl, by decide, by decide⟩

/-! ## OBIS codes (Go `cosem/obis.go`).  Go strings are modelled as `List
Char`. -/

namespace Cosem

/-- Go struct `Obis`; the six components are Go `int` fields, modelled as
`Int`. -/
structure Obis where
  A : Int
  B : Int
  C : Int
  D : Int
  E : Int
  F : Int
deriving DecidableEq, Repr

/-- Go: `validateOBISComponent` (error when `value < 0 || value > 255`). -/
def validateOBISComponent (value : Int) : Except String Unit :=
  if value < 0 ∨ value > 255 then
    .error "OBIS component must be between 0 and 255"
  else .ok ()

/-- Go: `NewObis`, validating the six components in order. -/
def newObis (a b c d e f : Int) : Except String Obis := do
  (validateOBISComponent a).mapError (fun m => "invalid A component: " ++ m)
  (validateOBISComponent b).mapError (fun m => "invalid B component: " ++ m)
  (validateOBISComponent c).mapError (fun m => "invalid C component: " ++ m)
  (validateOBISComponent d).mapError (fun m => "invalid D component: " ++ m)
  (validateOBISComponent e).mapError (fun m => "invalid E component: " ++ m)
  (validateOBISComponent f).mapError (fun m => "invalid F component: " ++ m)
  pure ⟨a, b, c, d, e, f⟩

/-- Go: `FromBytes`, requiring exactly six bytes. -/
def obisFromBytes (sourceBytes : List Nat) : Except String Obis :=
  match sourceBytes with
  | [b0, b1, b2, b3, b4, b5] =>
      newObis (Int.ofNat b0) (Int.ofNat b1) (Int.ofNat b2)
        (Int.ofNat b3) (Int.ofNat b4) (Int.ofNat b5)
  | _ => .error "not enough data to parse OBIS. Need 6 bytes"

/-- Split a character list at every literal dot, as the dot separators of the
Go regexes do. -/
def splitOnDot : List Char → List (List Char)
  | [] => [[]]
  | c :: rest =>
    let r := splitOnDot rest
    if c = '.' then [] :: r
    else
      match r with
      | h :: t => (c :: h) :: t
      | [] => [[c]]

/-- One capture group of the Go regexes: one to three ASCII digits
(`\d{1,3}`; Go `\d` is `[0-9]`). -/
def isObisPart (p : List Char) : Bool :=
  decide (1 ≤ p.length) && decide (p.length ≤ 3) && p.all Char.isDigit

/-- Go `strconv.Atoi` on the all-digit strings the regexes capture. -/
def atoiDigits (p : List Char) : Int :=
  Int.ofNat (p.foldl (fun a c => a * 10 + (c.toNat - 48)) 0)

/-- Go: `FromString`.  The source matches the whole string against
`sixPartRegex` = anchored `(\d{1,3})\.(\d{1,3})\.(\d{1,3})\.(\d{1,3})\.`
`(\d{1,3})\.(\d{1,3})` and then against the analogous `fivePartRegex`
(dot separators only).  Because the groups are dotless and both patterns are
anchored with literal dot separators, a string matches exactly when splitting
it at dots yields six (resp. five) parts of one to three digits each; a
six-part split (five dots) can never match the five-part pattern (four dots),
so the two branches stay mutually exclusive as in the source. -/
def obisFromString (obisString : List Char) : Except String Obis :=
  match splitOnDot obisString with
  | [p1, p2, p3, p4, p5, p6] =>
    if isObisPart p1 && isObisPart p2 && isObisPart p3 &&
       isObisPart p4 && isObisPart p5 && isObisPart p6 then
      newObis (atoiDigits p1) (atoiDigits p2) (atoiDigits p3)
        (atoiDigits p4) (atoiDigits p5) (atoiDigits p6)
    else .error "is not a parsable OBIS string"
  | [p1, p2, p3, p4, p5] =>
    if isObisPart p1 && isObisPart p2 && isObisPart p3 &&
       isObisPart p4 && isObisPart p5 then
      newObis (atoiDigits p1) (atoiDigits p2) (atoiDigits p3)
        (atoiDigits p4) (atoiDigits p5) 255
    else .error "is not a parsable OBIS string"
  | _ => .error "is not a parsable OBIS string"

end Cosem

/-- C5: the code rejects the canonical dashed form.  `FromString` only matches
dot-separated component lists, so `"1-0:1.8.0.255"` is rejected even though
the function's own doc comment says any separator is allowed and the claim
demands it parse; the dot-separated form, `FromBytes`, the five-part default
`F = 255` and the range check behave as claimed. -/
theorem obis_fromstring_dash_rejected :
    (Cosem.obisFromString "1-0:1.8.0.255".toList).toOption = none ∧
    Cosem.obisFromString "1.0.1.8.0.255".toList = .ok ⟨1, 0, 1, 8, 0, 255⟩ ∧
    Cosem.obisFromBytes [1, 0, 1, 8, 0, 255] = .ok ⟨1, 0, 1, 8, 0, 255⟩ ∧
    Cosem.obisFromString "1.0.1.8.0".toList = .ok ⟨1, 0, 1, 8, 0, 255⟩ ∧
    (Cosem.obisFromString "1.0.1.8.0.299".toList).toOption = none ∧
    (Cosem.newObis 1 0 1 8 0 300).toOption = none ∧
    (Cosem.newObis (-1) 0 1 8 0 255).toOption = none := by decide

/-- The eight (state, frame, target) arcs of the spec section 4.5 table,
written out independently of the embedded transition map. -/
def hdlcSpecArcs : List (Hdlc.HdlcState × Hdlc.FrameType × Hdlc.HdlcState) :=
  [ (.NotConnected, .SetNormalResponseMode, .AwaitingConnection),
    (.AwaitingConnection, .UnNumberedAcknowledgment, .Idle),
    (.Idle, .Information, .AwaitingResponse),
    (.Idle, .ReceiveReady, .AwaitingResponse),
    (.Idle, .Disconnect, .AwaitingDisconnect),
    (.AwaitingResponse, .Information, .Idle),
    (.AwaitingResponse, .ReceiveReady, .Idle),
    (.AwaitingDisconnect, .UnNumberedAcknowledgment, .NotConnected) ]

/-- C7: the HDLC link state machine accepts exactly the eight documented
(state, frame) pairs with the documented target states, raises a link protocol
error on every other pair, and `is_send_state` / `is_receive_state` hold
exactly in `NotConnected | Idle` and in the three `Awaiting` states
respectively. -/
theorem hdlc_link_fsm_exact :
    (∀ (s : Hdlc.HdlcState) (f : Hdlc.FrameType),
      Hdlc.processFrame s f =
        (match hdlcSpecArcs.find? (fun t => t.1 == s && t.2.1 == f) with
         | some t => .ok t.2.2
         | none => .error ())) ∧
    (∀ s : Hdlc.HdlcState,
      Hdlc.isSendState s = true ↔ (s = .NotConnected ∨ s = .Idle)) ∧
    (∀ s : Hdlc.HdlcState,
      Hdlc.isReceiveState s = true ↔
        (s = .AwaitingConnection ∨ s = .AwaitingResponse ∨ s = .AwaitingDisconnect)) := by
  refine ⟨by decide, by decide, by decide⟩
